import Mathlib

/-!
Verification of the resource-loading engine of `browser.py` (class `URL`):
locator parsing, redirect resolution, the inline-data decoder, the keyed
connection pool with liveness probing, and the HTTP request loop with its
redirect bound.  Python strings are embedded as `String` / `List Char`,
byte strings as `List Nat` (each element `< 256`), and the process-wide
socket cache as an explicit association list threaded through the
functions that mutate it.
-/

namespace Browser

/-! ## Python string primitives, embedded over `List Char` -/

/-- Python `str.strip()`: drop whitespace from both ends. -/
def trimL (l : List Char) : List Char :=
  ((l.dropWhile Char.isWhitespace).reverse.dropWhile Char.isWhitespace).reverse

/-- Python `str.strip()` at `String` level. -/
def strTrim (s : String) : String := String.mk (trimL s.data)

/-- Python `str.casefold()` / `str.lower()` restricted to ASCII. -/
def strLower (s : String) : String := String.mk (s.data.map Char.toLower)

/-- Python `s.split(sep, 1)`: split at the first occurrence of `sep`,
returning `none` when `sep` does not occur. -/
def splitOnceL (sep : List Char) : List Char → Option (List Char × List Char)
  | [] => if sep.isEmpty then some ([], []) else none
  | c :: cs =>
    if sep.isPrefixOf (c :: cs) then some ([], (c :: cs).drop sep.length)
    else (splitOnceL sep cs).map fun p => (c :: p.1, p.2)

/-- Python `sep in s` (substring containment test). -/
def containsSub (sep l : List Char) : Bool := (splitOnceL sep l).isSome

/-- Python `s.split(sep)` for a one-character separator. -/
def splitFullL (c : Char) : List Char → List (List Char)
  | [] => [[]]
  | x :: xs =>
    if x = c then [] :: splitFullL c xs
    else
      match splitFullL c xs with
      | r :: rs => (x :: r) :: rs
      | [] => [[x]]

/-- Python `path.rsplit("/", 1)[0]`: everything before the last `/`,
or the whole list when there is no `/`. -/
def rsplitBaseL (l : List Char) : List Char :=
  if l.contains '/' then ((l.reverse.dropWhile fun c => c ≠ '/').drop 1).reverse
  else l

/-- Model of Python `int(s)` restricted to nonnegative decimals: strip
whitespace, then require a nonempty all-digit string. -/
def pyIntNat? (l : List Char) : Option Nat :=
  let t := trimL l
  if t ≠ [] ∧ t.all Char.isDigit then
    some (t.foldl (fun a c => a * 10 + (c.toNat - 48)) 0)
  else none

/-! ## Locators (`URL.__init__`) -/

/-- The `scheme`/`host`/`port`/`path` attributes of an http(s) `URL`. -/
structure HttpLoc where
  scheme : String
  host : String
  port : Nat
  path : String
deriving DecidableEq, Repr

/-- The four kinds of parsed `URL` object: file, data, http(s), and a
view-source wrapper around one of the others. -/
inductive Locator where
  | file (path : String)
  | dataUrl (meta payload : String)
  | http (h : HttpLoc)
  | viewSource (inner : Locator)
deriving DecidableEq, Repr

/-- The characters of the `"view-source:"` marker. -/
def vsMarker : List Char := "view-source:".data

/-- The characters of the `"data:"` marker. -/
def dataMarker : List Char := "data:".data

/-- The characters of the `"://"` scheme separator. -/
def schemeSep : List Char := "://".data

/-- Model of POSIX `os.path.normpath`: collapse repeated separators,
drop `.` components, resolve `..` where possible; the empty path
normalizes to `"."`. -/
def normpathL (p : List Char) : List Char :=
  if p = [] then ['.']
  else
    let isl : Nat :=
      if p.head? = some '/' then
        if List.isPrefixOf ['/', '/'] p ∧ ¬ List.isPrefixOf ['/', '/', '/'] p then 2 else 1
      else 0
    let comps := splitFullL '/' p
    let newComps := comps.foldl
      (fun acc comp =>
        if comp = [] ∨ comp = ['.'] then acc
        else if comp ≠ ['.', '.'] ∨ (isl = 0 ∧ acc = []) ∨
                (acc ≠ [] ∧ acc.getLast? = some ['.', '.']) then acc ++ [comp]
        else if acc ≠ [] then acc.dropLast
        else acc) []
    let joined := List.intercalate ['/'] newComps
    let res := List.replicate isl '/' ++ joined
    if res = [] then ['.'] else res

/-- The hard-coded fallback document of `URL.__init__`, after `normpath`. -/
def defaultDocument : String :=
  String.mk (normpathL "C:/Users/matas/PersonalProjects/Browser/index.html".data)

/-- The Windows drive-letter test of `URL.__init__`: path starts with `/`,
has length `> 2`, and its third character is `:`. -/
def driveLetterForm : List Char → Bool
  | '/' :: _ :: ':' :: _ => true
  | _ => false

/-- Strip repeated `"view-source:"` markers, each followed by `lstrip`,
as the recursive `URL(inner_url)` constructions do.  The `Nat` argument is
recursion fuel; `l.length` always suffices since each step consumes the
twelve marker characters. -/
def stripVS : Nat → List Char → List Char
  | 0, l => l
  | n + 1, l =>
    if vsMarker.isPrefixOf l then
      stripVS n ((l.drop vsMarker.length).dropWhile Char.isWhitespace)
    else l

/-- `URL.__init__` on an already-stripped string that carries no
`view-source:` marker: the data, file and http/https branches.  Returns
`none` where Python raises (unknown scheme assertion, non-integer port). -/
def parseBase (u : List Char) : Option Locator :=
  if dataMarker.isPrefixOf u then
    let rest := u.drop dataMarker.length
    match splitOnceL [','] rest with
    | some (meta, payload) => some (.dataUrl (String.mk meta) (String.mk payload))
    | none => some (.dataUrl "" "")
  else
    match splitOnceL schemeSep u with
    | none => some (.file (String.mk (normpathL u)))
    | some (scheme, rest) =>
      if scheme = "file".data then
        let p1 := if driveLetterForm rest then rest.drop 1 else rest
        let p2 := normpathL p1
        let p3 := if trimL p2 = [] then defaultDocument.data else p2
        some (.file (String.mk p3))
      else if scheme = "http".data ∨ scheme = "https".data then
        let port0 : Nat := if scheme = "http".data then 80 else 443
        let rest2 := if rest.contains '/' then rest else rest ++ ['/']
        match splitOnceL ['/'] rest2 with
        | none => none
        | some (hostport, rem) =>
          if hostport.contains ':' then
            match splitOnceL [':'] hostport with
            | none => none
            | some (h, pstr) =>
              match pyIntNat? pstr with
              | none => none
              | some p =>
                some (.http ⟨String.mk scheme, String.mk h, p, String.mk ('/' :: rem)⟩)
          else some (.http ⟨String.mk scheme, String.mk hostport, port0, String.mk ('/' :: rem)⟩)
      else none

/-- `URL.__init__` / `parse(raw)`: strip, unwrap any `view-source:`
markers (nested wrappers flatten, since the constructor copies the inner
object's attributes), then dispatch on `data:` / `://` / implicit file. -/
def parse (s : String) : Option Locator :=
  let u := trimL s.data
  if vsMarker.isPrefixOf u then
    (parseBase (trimL (stripVS u.length u))).map .viewSource
  else parseBase u

/-! ## Redirect resolution (`URL.resolve_redirect_location`) -/

/-- `URL.resolve_redirect_location`: absolute URLs pass through, a
leading-`/` location is host-absolute, anything else is resolved against
`base.path` with its last segment removed. -/
def resolve_redirect_location (u : HttpLoc) (location : String) : String :=
  if containsSub schemeSep location.data then location
  else if location.data.head? = some '/' then
    u.scheme ++ "://" ++ u.host ++ ":" ++ toString u.port ++ location
  else
    u.scheme ++ "://" ++ u.host ++ ":" ++ toString u.port ++
      String.mk (rsplitBaseL u.path.data) ++ "/" ++ location

/-! ## Bytes and text codecs (`URL.decode_data_url`)

Byte strings are `List Nat` with every element `< 256`.  The Python
codecs the source calls (`str.encode`, `bytes.decode`) are embedded as
executable UTF-8 / Latin-1 codecs over these lists. -/

/-- UTF-8 encoding of one Unicode code point (Python `chr(n).encode()`). -/
def utf8EncodeCp (n : Nat) : List Nat :=
  if n < 0x80 then [n]
  else if n < 0x800 then [0xC0 + n / 64, 0x80 + n % 64]
  else if n < 0x10000 then [0xE0 + n / 4096, 0x80 + n / 64 % 64, 0x80 + n % 64]
  else [0xF0 + n / 262144, 0x80 + n / 4096 % 64, 0x80 + n / 64 % 64, 0x80 + n % 64]

/-- Python `s.encode("utf-8")` (with `errors="replace"`; `str` values are
valid scalar sequences, so replacement never triggers). -/
def utf8Encode (s : String) : List Nat := s.data.flatMap fun c => utf8EncodeCp c.toNat

/-- Is `b` a UTF-8 continuation byte? -/
def isCont (b : Nat) : Bool := 0x80 ≤ b ∧ b < 0xC0

/-- Strict UTF-8 decoding, Python `raw.decode("utf-8")`: `none` on any
invalid, overlong, surrogate or out-of-range sequence. -/
def decodeUtf8? : List Nat → Option (List Char)
  | [] => some []
  | b :: rest =>
    if b < 0x80 then
      (decodeUtf8? rest).map fun cs => Char.ofNat b :: cs
    else if b < 0xC2 then none
    else if b < 0xE0 then
      match rest with
      | b1 :: rest1 =>
        if isCont b1 then
          (decodeUtf8? rest1).map fun cs => Char.ofNat ((b - 0xC0) * 64 + (b1 - 0x80)) :: cs
        else none
      | _ => none
    else if b < 0xF0 then
      match rest with
      | b1 :: b2 :: rest2 =>
        if isCont b1 ∧ isCont b2 then
          let cp := (b - 0xE0) * 4096 + (b1 - 0x80) * 64 + (b2 - 0x80)
          if cp < 0x800 ∨ (0xD800 ≤ cp ∧ cp < 0xE000) then none
          else (decodeUtf8? rest2).map fun cs => Char.ofNat cp :: cs
        else none
      | _ => none
    else if b < 0xF5 then
      match rest with
      | b1 :: b2 :: b3 :: rest3 =>
        if isCont b1 ∧ isCont b2 ∧ isCont b3 then
          let cp := (b - 0xF0) * 262144 + (b1 - 0x80) * 4096 + (b2 - 0x80) * 64 + (b3 - 0x80)
          if cp < 0x10000 ∨ 0x10FFFF < cp then none
          else (decodeUtf8? rest3).map fun cs => Char.ofNat cp :: cs
        else none
      | _ => none
    else none

/-- One step of lenient UTF-8 decoding: try to decode a valid sequence of
length 1, 2, 3 or 4 at the head; return the decoded character and the
number of bytes consumed, or `none` when the head is invalid. -/
def utf8Head? (l : List Nat) : Option (Char × Nat) :=
  match decodeUtf8? (l.take 1) with
  | some [c] => some (c, 1)
  | _ =>
    match decodeUtf8? (l.take 2) with
    | some [c] => some (c, 2)
    | _ =>
      match decodeUtf8? (l.take 3) with
      | some [c] => some (c, 3)
      | _ =>
        match decodeUtf8? (l.take 4) with
        | some [c] => some (c, 4)
        | _ => none

/-- Fuel-indexed scanner for the replacing decoder; fuel `l.length`
always suffices because each step consumes at least one byte. -/
def utf8ReplaceGo : Nat → List Nat → List Char
  | 0, _ => []
  | _ + 1, [] => []
  | fuel + 1, b :: rest =>
    match utf8Head? (b :: rest) with
    | some (c, k) => c :: utf8ReplaceGo fuel ((b :: rest).drop k)
    | none => Char.ofNat 0xFFFD :: utf8ReplaceGo fuel rest

/-- Python `raw.decode("utf-8", errors="replace")`: scan, substituting
`U+FFFD` for each offending byte. -/
def utf8DecodeReplace (l : List Nat) : String :=
  String.mk (utf8ReplaceGo l.length l)

/-! ## Percent decoding, base64, and the data-URL decoder -/

/-- Hex-digit test on a byte value (`0-9`, `A-F`, `a-f`). -/
def isHexB (b : Nat) : Bool :=
  (48 ≤ b ∧ b ≤ 57) ∨ (65 ≤ b ∧ b ≤ 70) ∨ (97 ≤ b ∧ b ≤ 102)

/-- Value of a hex-digit byte. -/
def hexVal (b : Nat) : Nat :=
  if 48 ≤ b ∧ b ≤ 57 then b - 48
  else if 65 ≤ b ∧ b ≤ 70 then b - 55
  else if 97 ≤ b ∧ b ≤ 102 then b - 87
  else 0

/-- Core of `urllib.parse.unquote_to_bytes` over the UTF-8 bytes of the
payload: `%XX` with two hex digits becomes one byte, any malformed escape
is kept literally. -/
def pdAux : List Nat → List Nat
  | [] => []
  | c :: rest =>
    if c = 37 then
      match rest with
      | a :: b :: rest2 =>
        if isHexB a ∧ isHexB b then (hexVal a * 16 + hexVal b) :: pdAux rest2
        else 37 :: pdAux (a :: b :: rest2)
      | short => 37 :: short
    else c :: pdAux rest

/-- Python `urllib.parse.unquote_to_bytes(payload)` for a `str` payload:
percent-decode over its UTF-8 bytes. -/
def percentDecodeBytes (payload : String) : List Nat := pdAux (utf8Encode payload)

/-- The `(scheme, host, port)` cache key. -/
abbrev PoolKey := String × String × Nat

/-- Outcome of the one-byte non-blocking `MSG_PEEK` probe on a cached
socket: `wouldBlock` (`BlockingIOError`, no data pending), `closedByPeer`
(`recv` returned `b""`), `dataAvailable` (unexpected pending data), or
`errored` (any other exception). -/
inductive PeekResult where
  | wouldBlock | closedByPeer | dataAvailable | errored
deriving DecidableEq, Repr

/-- The mutable state a fetch threads along: the socket cache, a counter
supplying fresh handles, the handles whose `close` was invoked, and the
total count of body bytes consumed from response streams. -/
structure FetchState where
  cache : List (PoolKey × Nat)
  nextConn : Nat
  closed : List Nat
  bytesRead : Nat
deriving DecidableEq, Repr

/-- Dict lookup in the socket cache. -/
def lookupKey (c : List (PoolKey × Nat)) (k : PoolKey) : Option Nat :=
  (c.find? fun p => p.1 = k).map fun p => p.2

/-- Dict deletion. -/
def eraseKey (c : List (PoolKey × Nat)) (k : PoolKey) : List (PoolKey × Nat) :=
  c.filter fun p => ¬ p.1 = k

/-- Dict insertion / overwrite. -/
def insertKey (c : List (PoolKey × Nat)) (k : PoolKey) (v : Nat) : List (PoolKey × Nat) :=
  eraseKey c k ++ [(k, v)]

/-- The create path of `get_socket`: open a fresh connection (TLS-wrapped
when the scheme asks for it — transparent at this abstraction) and cache
it under `k`. -/
def mkNewSocket (st : FetchState) (k : PoolKey) : Nat × FetchState :=
  let s := st.nextConn
  (s, { st with cache := insertKey st.cache k s, nextConn := st.nextConn + 1 })

/-- `URL.get_socket`: return the cached handle when the probe reports no
pending data; on a peer-close or probe error, close and evict it and fall
through to the create path; on unexpected pending data, fall through
without closing (the new handle overwrites the cache slot). -/
def get_socket (peek : Nat → PeekResult) (st : FetchState) (k : PoolKey) : Nat × FetchState :=
  match lookupKey st.cache k with
  | some s =>
    match peek s with
    | .wouldBlock => (s, st)
    | .closedByPeer =>
      mkNewSocket { st with cache := eraseKey st.cache k, closed := s :: st.closed } k
    | .errored =>
      mkNewSocket { st with cache := eraseKey st.cache k, closed := s :: st.closed } k
    | .dataAvailable => mkNewSocket st k
  | none => mkNewSocket st k

/-- One wire response as delivered by the deterministic server oracle:
parsed status code, the raw header lines already split at their first
colon, and the byte stream following the header block. -/
structure Response where
  status : Nat
  headers : List (String × String)
  body : List Nat

/-- The network oracle: a server function and the probe outcomes. -/
structure Net where
  resp : HttpLoc → Response
  peek : Nat → PeekResult

/-- The header dict of `URL.request`: names casefolded, values stripped,
last duplicate wins; lookup by an already-lowercase name. -/
def headerLookup (hs : List (String × String)) (name : String) : Option String :=
  hs.foldl (fun acc p => if strLower p.1 = name then some (strTrim p.2) else acc) none

/-- The fatal outcomes of `URL.request` (Python exceptions). -/
inductive ReqError where
  | tooManyRedirects
  | unsupportedEncoding
  | redirectMissingLocation
  | badContentLength
  | nonHttpRedirect
deriving DecidableEq, Repr

/-- `URL.MAX_REDIRECTS`. -/
def MAX_REDIRECTS : Nat := 10

/-- A redirect target `URL(...)` usable by the recursive `request` call:
an http(s) locator, possibly under a `view-source:` wrapper (the wrapper
copies the inner attributes, so `request` works on it unchanged). -/
def parseToHttp (s : String) : Option HttpLoc :=
  match parse s with
  | some (.http l) => some l
  | some (.viewSource (.http l)) => some l
  | _ => none

/-- Finish a non-redirect response that lacks a (truthy) content-length:
read the stream to its end, then close and evict this key's cache entry. -/
def finishNoLength (st : FetchState) (k : PoolKey) (body : List Nat) :
    FetchState × Except ReqError String :=
  let st1 := { st with bytesRead := st.bytesRead + body.length }
  let st2 :=
    match lookupKey st1.cache k with
    | some c => { st1 with cache := eraseKey st1.cache k, closed := c :: st1.closed }
    | none => st1
  (st2, .ok (utf8DecodeReplace body))

/-- `URL.request(redirect_count)`: refuse once the hop counter exceeds
`MAX_REDIRECTS`, acquire a pooled socket, obtain the response, reject
transfer/content-encoding before touching the body, follow redirects
(draining a declared content-length first), otherwise read the body by
content-length or to stream end and decode it UTF-8-with-replacement.

The extra first argument is structural recursion fuel; the recursion
stops by the hop-counter test after at most `MAX_REDIRECTS + 1` calls, so
any fuel with `fuel + redirect_count > MAX_REDIRECTS + 1` is enough and
the fuel-exhausted branch is unreachable from `request`. -/
def requestFuel (net : Net) :
    Nat → Nat → HttpLoc → FetchState → FetchState × Except ReqError String
  | 0, _, _, st => (st, .error .tooManyRedirects)
  | fuel + 1, redirect_count, loc, st =>
    if redirect_count > MAX_REDIRECTS then (st, .error .tooManyRedirects)
    else
      let k : PoolKey := (loc.scheme, loc.host, loc.port)
      let acq := get_socket net.peek st k
      let st1 := acq.2
      let resp := net.resp loc
      let hdr := headerLookup resp.headers
      if hdr "transfer-encoding" ≠ none ∨ hdr "content-encoding" ≠ none then
        (st1, .error .unsupportedEncoding)
      else if 300 ≤ resp.status ∧ resp.status < 400 then
        match hdr "location" with
        | none => (st1, .error .redirectMissingLocation)
        | some location =>
          let drained :=
            match hdr "content-length" with
            | some v => if v = "" then some 0 else (pyIntNat? v.data).map (min resp.body.length)
            | none => some 0
          match drained with
          | none => (st1, .error .badContentLength)
          | some d =>
            let st2 := { st1 with bytesRead := st1.bytesRead + d }
            match parseToHttp (resolve_redirect_location loc location) with
            | some loc2 => requestFuel net fuel (redirect_count + 1) loc2 st2
            | none => (st2, .error .nonHttpRedirect)
      else
        match hdr "content-length" with
        | some v =>
          if v = "" then finishNoLength st1 k resp.body
          else
            match pyIntNat? v.data with
            | none => (st1, .error .badContentLength)
            | some n =>
              let bytes := resp.body.take n
              ({ st1 with bytesRead := st1.bytesRead + bytes.length },
                .ok (utf8DecodeReplace bytes))
        | none => finishNoLength st1 k resp.body

/-- A top-level fetch: `url.request()` with `redirect_count = 0` and
enough fuel that the hop-counter test alone stops the recursion. -/
def request (net : Net) (loc : HttpLoc) (st : FetchState) :
    FetchState × Except ReqError String :=
  requestFuel net (MAX_REDIRECTS + 2) 0 loc st

/-! ## Redirect chains -/

/-- Does the redirect branch of `request` accept the `content-length`
header of `r` (absent, empty, or a parseable integer to drain)? -/
def clDrainOkB (r : Response) : Bool :=
  match headerLookup r.headers "content-length" with
  | none => true
  | some v => v = "" ∨ (pyIntNat? v.data).isSome

/-- `net` answers `a` with a well-formed redirect hop leading to `b`:
no forbidden encoding headers, a 3xx status, a `location` header whose
resolution against `a` parses to `b`, and a drainable content-length. -/
def redirectsToB (net : Net) (a b : HttpLoc) : Bool :=
  let r := net.resp a
  match headerLookup r.headers "location" with
  | none => false
  | some location =>
    decide (headerLookup r.headers "transfer-encoding" = none) &&
    decide (headerLookup r.headers "content-encoding" = none) &&
    decide (300 ≤ r.status ∧ r.status < 400) &&
    clDrainOkB r &&
    decide (parseToHttp (resolve_redirect_location a location) = some b)

/-- `net` answers `a` with a terminal 200 response: no forbidden encoding
headers, and a content-length that is either absent or exactly the body
length, so the whole body is returned. -/
def finalOkB (net : Net) (a : HttpLoc) : Bool :=
  let r := net.resp a
  decide (headerLookup r.headers "transfer-encoding" = none) &&
  decide (headerLookup r.headers "content-encoding" = none) &&
  decide (r.status = 200) &&
  (match headerLookup r.headers "content-length" with
   | none => true
   | some v => decide (v ≠ "" ∧ pyIntNat? v.data = some r.body.length))

/-- The locators of `hops` form a chain of redirect responses starting at
`a`. -/
def redirectSeqB (net : Net) : HttpLoc → List HttpLoc → Bool
  | _, [] => true
  | a, b :: rest => redirectsToB net a b && redirectSeqB net b rest

/-! ## Percent re-encoding (spec, section 8 round-trip) -/

/-- Uppercase hex-digit byte of a value below sixteen. -/
def hexDigitByte (n : Nat) : Nat := if n < 10 then 48 + n else 55 + n

/-- The unreserved ASCII bytes the spec-modelled re-encoder keeps
literal: alphanumerics and `-._~`. -/
def isUnreservedByte (b : Nat) : Bool :=
  (48 ≤ b ∧ b ≤ 57) ∨ (65 ≤ b ∧ b ≤ 90) ∨ (97 ≤ b ∧ b ≤ 122) ∨
    b = 45 ∨ b = 46 ∨ b = 95 ∨ b = 126

/-- Modelled from the spec: the re-encoder of the section-8 round-trip
property ("re-encoding with the same charset/encoding settings"); the
repository contains only the decoder, so this follows the spec's words
for the percent-encoding path — each byte is written either literally
(unreserved ASCII) or as `%XX` with uppercase hex digits. -/
def percentEncodeBytes (bs : List Nat) : String :=
  String.mk (bs.flatMap fun b =>
    if isUnreservedByte b then [Char.ofNat b]
    else ['%', Char.ofNat (hexDigitByte (b / 16)), Char.ofNat (hexDigitByte (b % 16))])

/-! ## Witness data: concrete locators, states and servers -/

private def exLoc : HttpLoc := ⟨"https", "a.com", 443, "/dir/page"⟩

/-- Witness network for C2: a single 200 response declaring
`Transfer-Encoding: chunked`. -/
private def c2Net : Net :=
  { resp := fun _ =>
      { status := 200
        headers := [("Transfer-Encoding", "chunked"), ("Content-Length", "5")]
        body := [104, 101, 108, 108, 111] }
    peek := fun _ => .wouldBlock }

private def st0 : FetchState := ⟨[], 0, [], 0⟩

private def locA : HttpLoc := ⟨"http", "example.com", 80, "/"⟩

/-- Witness network for C4: a 200 response with no `content-length`. -/
private def c4Net : Net :=
  { resp := fun _ => { status := 200, headers := [("Date", "x")], body := [104, 105] }
    peek := fun _ => .wouldBlock }

/-- Witness network for C10: `/` issues a 301 to `/next` with no
content-length; `/next` answers 200. -/
private def c10Net : Net :=
  { resp := fun l =>
      if l.path = "/" then
        { status := 301, headers := [("Location", "/next")], body := [120, 121] }
      else
        { status := 200, headers := [("Content-Length", "2")], body := [111, 107] }
    peek := fun _ => .wouldBlock }

/-- Witness server for the short chain: paths of length below three
redirect to the same path with one more `r`; longer paths answer 200. -/
private def chain2Net : Net :=
  { resp := fun l =>
      if 3 ≤ l.path.length then { status := 200, headers := [], body := [111, 107] }
      else { status := 301, headers := [("Location", l.path ++ "r")], body := [] }
    peek := fun _ => .wouldBlock }

/-- Witness server for the long chain: the 200 needs a path of length
thirteen, which an eleven-hop chain from `/` never reaches. -/
private def chain12Net : Net :=
  { resp := fun l =>
      if 13 ≤ l.path.length then { status := 200, headers := [], body := [111, 107] }
      else { status := 301, headers := [("Location", l.path ++ "r")], body := [] }
    peek := fun _ => .wouldBlock }

private def hopLoc (p : String) : HttpLoc := ⟨"http", "example.com", 80, p⟩

private def hops2 : List HttpLoc := [hopLoc "/r", hopLoc "/rr"]

private def hops11 : List HttpLoc :=
  [hopLoc "/r", hopLoc "/rr", hopLoc "/rrr", hopLoc "/rrrr", hopLoc "/rrrrr",
   hopLoc "/rrrrrr", hopLoc "/rrrrrrr", hopLoc "/rrrrrrrr", hopLoc "/rrrrrrrrr",
   hopLoc "/rrrrrrrrrr", hopLoc "/rrrrrrrrrrr"]

/-! ## Basic lemmas -/

theorem strData_append (s t : String) : (s ++ t).data = s.data ++ t.data := by
  cases s; cases t; rfl

theorem strMk_data (s : String) : String.mk s.data = s := by
  cases s; rfl

theorem lookupKey_insert (c : List (PoolKey × Nat)) (k : PoolKey) (v : Nat) :
    lookupKey (insertKey c k v) k = some v := by
  induction c with
  | nil => simp [insertKey, eraseKey, lookupKey]
  | cons hd tl ih =>
    by_cases h : hd.1 = k <;>
      simp [insertKey, eraseKey, lookupKey, h] at ih ⊢

theorem lookupKey_erase (c : List (PoolKey × Nat)) (k : PoolKey) :
    lookupKey (eraseKey c k) k = none := by
  induction c with
  | nil => simp [eraseKey, lookupKey]
  | cons hd tl ih =>
    by_cases h : hd.1 = k <;>
      simp [eraseKey, lookupKey, h] at ih ⊢

/-! ## Claims -/

/-- **C3.** For a pool key with a cached handle, `get_socket` returns that
handle unchanged when the peek reports no data available; when the peek
reports a peer close or any other error, the cached handle is closed and
evicted and a freshly created handle is cached and returned; and in every
case the function returns a handle (the cached one or a fresh one) rather
than surfacing an error. -/
theorem C3_stale_connection_handling (peek : Nat → PeekResult) (st : FetchState)
    (k : PoolKey) (s : Nat) (hc : lookupKey st.cache k = some s) :
    (peek s = .wouldBlock → get_socket peek st k = (s, st)) ∧
    (peek s = .closedByPeer ∨ peek s = .errored →
      (get_socket peek st k).1 = st.nextConn ∧
      s ∈ (get_socket peek st k).2.closed ∧
      lookupKey (get_socket peek st k).2.cache k = some st.nextConn) ∧
    ((get_socket peek st k).1 = s ∨ (get_socket peek st k).1 = st.nextConn) := by
  refine ⟨fun hp => ?_, fun hp => ?_, ?_⟩
  · simp [get_socket, hc, hp]
  · rcases hp with hp | hp <;>
      simp [get_socket, hc, hp, mkNewSocket, lookupKey_insert]
  · cases hp : peek s <;> simp [get_socket, hc, hp, mkNewSocket]

/-- Witness for C3 at concrete pools: a live probe returns the cached
handle 5 unchanged; a peer-closed probe closes 5, evicts it, and returns
the fresh handle 7. -/
theorem C3_stale_connection_handling_witness :
    (get_socket (fun _ => .wouldBlock) ⟨[(("http", "h", 80), 5)], 7, [], 0⟩ ("http", "h", 80) =
      (5, ⟨[(("http", "h", 80), 5)], 7, [], 0⟩)) ∧
    ((get_socket (fun _ => .closedByPeer) ⟨[(("http", "h", 80), 5)], 7, [], 0⟩
        ("http", "h", 80)).1 = 7 ∧
      5 ∈ (get_socket (fun _ => .closedByPeer) ⟨[(("http", "h", 80), 5)], 7, [], 0⟩
        ("http", "h", 80)).2.closed ∧
      lookupKey (get_socket (fun _ => .closedByPeer) ⟨[(("http", "h", 80), 5)], 7, [], 0⟩
        ("http", "h", 80)).2.cache ("http", "h", 80) = some 7) := by
  refine ⟨?_, ?_⟩
  · exact (C3_stale_connection_handling (fun _ => .wouldBlock)
      ⟨[(("http", "h", 80), 5)], 7, [], 0⟩ ("http", "h", 80) 5 (by decide)).1 rfl
  · exact (C3_stale_connection_handling (fun _ => .closedByPeer)
      ⟨[(("http", "h", 80), 5)], 7, [], 0⟩ ("http", "h", 80) 5 (by decide)).2.1 (Or.inl rfl)

theorem rsplitBaseL_append (a b : String) (hb : b.data.contains '/' = false) :
    rsplitBaseL (a.data ++ '/' :: b.data) = a.data := by
  have hcontains : (a.data ++ '/' :: b.data).contains '/' = true := by
    rw [List.elem_iff]
    simp
  unfold rsplitBaseL
  rw [if_pos hcontains]
  rw [List.reverse_append, List.reverse_cons]
  have hrev : b.data.reverse ++ ['/'] ++ a.data.reverse =
      b.data.reverse ++ '/' :: a.data.reverse := by simp
  rw [hrev, List.dropWhile_append]
  have hdropb : List.dropWhile (fun c => ¬ c = '/') b.data.reverse = [] := by
    rw [List.dropWhile_eq_nil_iff]
    intro x hx
    simp only [List.mem_reverse] at hx
    simp only [decide_eq_true_eq]
    intro hc
    subst hc
    rw [show b.data.contains '/' = decide ('/' ∈ b.data) from by
      rw [Bool.eq_iff_iff]; simp [List.elem_iff]] at hb
    simp [hx] at hb
  rw [hdropb]
  simp [List.dropWhile_cons]

/-- **C5.** `resolve_redirect_location` returns the location unchanged
when it contains `://`; prefixes `scheme://host:port` when it starts with
`/`; otherwise splices it after the base path with its last `/`-segment
dropped; in particular base `https://a.com/dir/page` with location
`other` yields `https://a.com:443/dir/other`. -/
theorem C5_resolve_redirect_location (u : HttpLoc) (location : String) :
    (containsSub schemeSep location.data = true →
      resolve_redirect_location u location = location) ∧
    (containsSub schemeSep location.data = false → location.data.head? = some '/' →
      resolve_redirect_location u location =
        u.scheme ++ "://" ++ u.host ++ ":" ++ toString u.port ++ location) ∧
    (∀ a b : String, containsSub schemeSep location.data = false →
      location.data.head? ≠ some '/' →
      u.path = a ++ "/" ++ b → b.data.contains '/' = false →
      resolve_redirect_location u location =
        u.scheme ++ "://" ++ u.host ++ ":" ++ toString u.port ++ a ++ "/" ++ location) ∧
    resolve_redirect_location exLoc "other" = "https://a.com:443/dir/other" := by
  refine ⟨fun h => ?_, fun h h2 => ?_, fun a b h h2 hpath hb => ?_, by decide⟩
  · simp [resolve_redirect_location, h]
  · simp [resolve_redirect_location, h, h2]
  · have hdata : u.path.data = a.data ++ '/' :: b.data := by
      rw [hpath, strData_append, strData_append]
      simp
    simp only [resolve_redirect_location, h, Bool.false_eq_true, if_false, h2]
    rw [hdata, rsplitBaseL_append a b hb, strMk_data]

/-- Witness for C5: each branch evaluated at a concrete input — an
absolute location passes through, a `/`-location is host-absolute, and a
relative location replaces the last path segment. -/
theorem C5_resolve_redirect_location_witness :
    resolve_redirect_location exLoc "https://b.com/x" = "https://b.com/x" ∧
    resolve_redirect_location exLoc "/abs" =
      "https" ++ "://" ++ "a.com" ++ ":" ++ toString 443 ++ "/abs" ∧
    resolve_redirect_location exLoc "other" =
      "https" ++ "://" ++ "a.com" ++ ":" ++ toString 443 ++ "/dir" ++ "/" ++ "other" := by
  refine ⟨(C5_resolve_redirect_location exLoc "https://b.com/x").1 (by decide),
    (C5_resolve_redirect_location exLoc "/abs").2.1 (by decide) (by decide),
    (C5_resolve_redirect_location exLoc "other").2.2.1 "/dir" "page" (by decide) (by decide)
      (by decide) (by decide)⟩

theorem get_socket_bytesRead (peek : Nat → PeekResult) (st : FetchState) (k : PoolKey) :
    (get_socket peek st k).2.bytesRead = st.bytesRead := by
  unfold get_socket
  cases hl : lookupKey st.cache k with
  | none => simp [mkNewSocket]
  | some s => cases hp : peek s <;> simp [hp, mkNewSocket]

theorem get_socket_caches (peek : Nat → PeekResult) (st : FetchState) (k : PoolKey) :
    lookupKey (get_socket peek st k).2.cache k = some (get_socket peek st k).1 := by
  unfold get_socket
  cases hl : lookupKey st.cache k with
  | none => simp [mkNewSocket, lookupKey_insert]
  | some s => cases hp : peek s <;> simp [hp, mkNewSocket, lookupKey_insert, hl]

/-- **C2.** Whenever the response carries a `transfer-encoding` or a
`content-encoding` header, the fetch fails fatally after header parsing —
whatever the status code — and the running body-byte counter is untouched,
so no body bytes were consumed. -/
theorem C2_forbidden_encoding_fatal (net : Net) (fuel rc : Nat) (loc : HttpLoc)
    (st : FetchState) (hrc : rc ≤ MAX_REDIRECTS)
    (henc : headerLookup (net.resp loc).headers "transfer-encoding" ≠ none ∨
      headerLookup (net.resp loc).headers "content-encoding" ≠ none) :
    (requestFuel net (fuel + 1) rc loc st).2 = .error .unsupportedEncoding ∧
    (requestFuel net (fuel + 1) rc loc st).1.bytesRead = st.bytesRead := by
  have hgt : ¬ rc > MAX_REDIRECTS := by omega
  simp only [requestFuel]
  rw [if_neg hgt]
  simp only [if_pos henc]
  exact ⟨trivial, get_socket_bytesRead net.peek st (loc.scheme, loc.host, loc.port)⟩

/-- Witness for C2: the chunked response is rejected with no body bytes
read. -/
theorem C2_forbidden_encoding_fatal_witness :
    (requestFuel c2Net 12 0 locA st0).2 = .error .unsupportedEncoding ∧
    (requestFuel c2Net 12 0 locA st0).1.bytesRead = st0.bytesRead :=
  C2_forbidden_encoding_fatal c2Net 11 0 locA st0 (by decide) (by decide)

/-- **C4.** A non-redirect response without a `content-length` header is
read to the end of the stream (the byte counter grows by the full body
length), the decoded body is returned, and immediately afterwards the
pool holds no entry for this fetch's `(scheme, host, port)` key. -/
theorem C4_no_content_length_discards_pool (net : Net) (fuel rc : Nat) (loc : HttpLoc)
    (st : FetchState) (hrc : rc ≤ MAX_REDIRECTS)
    (hte : headerLookup (net.resp loc).headers "transfer-encoding" = none)
    (hce : headerLookup (net.resp loc).headers "content-encoding" = none)
    (hst : ¬ (300 ≤ (net.resp loc).status ∧ (net.resp loc).status < 400))
    (hcl : headerLookup (net.resp loc).headers "content-length" = none) :
    (requestFuel net (fuel + 1) rc loc st).2 =
      .ok (utf8DecodeReplace (net.resp loc).body) ∧
    lookupKey (requestFuel net (fuel + 1) rc loc st).1.cache
      (loc.scheme, loc.host, loc.port) = none ∧
    (requestFuel net (fuel + 1) rc loc st).1.bytesRead =
      st.bytesRead + (net.resp loc).body.length := by
  have hgt : ¬ rc > MAX_REDIRECTS := by omega
  have hnenc : ¬ (headerLookup (net.resp loc).headers "transfer-encoding" ≠ none ∨
      headerLookup (net.resp loc).headers "content-encoding" ≠ none) := by
    simp [hte, hce]
  simp only [requestFuel]
  rw [if_neg hgt]
  simp only [if_neg hnenc, if_neg hst, hcl]
  have hcache := get_socket_caches net.peek st (loc.scheme, loc.host, loc.port)
  have hbytes := get_socket_bytesRead net.peek st (loc.scheme, loc.host, loc.port)
  simp only [finishNoLength, hcache]
  refine ⟨trivial, ?_, by simp [hbytes]⟩
  simp [lookupKey_erase]

/-- Witness for C4: the body is returned whole and the pool entry for the
key is gone. -/
theorem C4_no_content_length_discards_pool_witness :
    (requestFuel c4Net 12 0 locA st0).2 = .ok (utf8DecodeReplace (c4Net.resp locA).body) ∧
    lookupKey (requestFuel c4Net 12 0 locA st0).1.cache
      (locA.scheme, locA.host, locA.port) = none ∧
    (requestFuel c4Net 12 0 locA st0).1.bytesRead =
      st0.bytesRead + (c4Net.resp locA).body.length :=
  C4_no_content_length_discards_pool c4Net 11 0 locA st0 (by decide) (by decide) (by decide)
    (by decide) (by decide)

/-- **C10.** A redirect response without a `content-length` header is
followed without reading any body bytes: the fetch continues as the
recursive call on the resolved target, the byte counter is unchanged, and
the cached connection for the key is still pooled (neither drained nor
discarded). -/
theorem C10_redirect_no_body_read (net : Net) (fuel rc : Nat) (loc loc2 : HttpLoc)
    (st : FetchState) (location : String) (hrc : rc ≤ MAX_REDIRECTS)
    (hte : headerLookup (net.resp loc).headers "transfer-encoding" = none)
    (hce : headerLookup (net.resp loc).headers "content-encoding" = none)
    (hst : 300 ≤ (net.resp loc).status ∧ (net.resp loc).status < 400)
    (hlocn : headerLookup (net.resp loc).headers "location" = some location)
    (hcl : headerLookup (net.resp loc).headers "content-length" = none)
    (hres : parseToHttp (resolve_redirect_location loc location) = some loc2) :
    requestFuel net (fuel + 1) rc loc st =
      requestFuel net fuel (rc + 1) loc2
        (get_socket net.peek st (loc.scheme, loc.host, loc.port)).2 ∧
    (get_socket net.peek st (loc.scheme, loc.host, loc.port)).2.bytesRead = st.bytesRead ∧
    lookupKey (get_socket net.peek st (loc.scheme, loc.host, loc.port)).2.cache
      (loc.scheme, loc.host, loc.port) =
      some (get_socket net.peek st (loc.scheme, loc.host, loc.port)).1 := by
  have hgt : ¬ rc > MAX_REDIRECTS := by omega
  have hnenc : ¬ (headerLookup (net.resp loc).headers "transfer-encoding" ≠ none ∨
      headerLookup (net.resp loc).headers "content-encoding" ≠ none) := by
    simp [hte, hce]
  refine ⟨?_, get_socket_bytesRead net.peek st (loc.scheme, loc.host, loc.port),
    get_socket_caches net.peek st (loc.scheme, loc.host, loc.port)⟩
  have hx : ∀ x : FetchState,
      ({ cache := x.cache, nextConn := x.nextConn, closed := x.closed,
         bytesRead := x.bytesRead + 0 } : FetchState) = x := by
    intro x; cases x; simp
  simp only [requestFuel]
  rw [if_neg hgt]
  simp only [if_neg hnenc, if_pos hst, hlocn, hcl, hres]
  rw [hx]

/-- Witness for C10 at the concrete redirect hop. -/
theorem C10_redirect_no_body_read_witness :
    requestFuel c10Net 12 0 locA st0 =
      requestFuel c10Net 11 1 ⟨"http", "example.com", 80, "/next"⟩
        (get_socket c10Net.peek st0 (locA.scheme, locA.host, locA.port)).2 ∧
    (get_socket c10Net.peek st0 (locA.scheme, locA.host, locA.port)).2.bytesRead =
      st0.bytesRead ∧
    lookupKey (get_socket c10Net.peek st0 (locA.scheme, locA.host, locA.port)).2.cache
      (locA.scheme, locA.host, locA.port) =
      some (get_socket c10Net.peek st0 (locA.scheme, locA.host, locA.port)).1 :=
  C10_redirect_no_body_read c10Net 11 0 locA ⟨"http", "example.com", 80, "/next"⟩ st0 "/next"
    (by decide) (by decide) (by decide) (by decide) (by decide) (by decide) (by decide)

/-- One redirect hop: when the response at `a` is a well-formed redirect
to `b`, the engine continues as the recursive call on `b` with the hop
counter incremented (for some intermediate state). -/
theorem requestFuel_redirect_step (net : Net) (fuel rc : Nat) (a b : HttpLoc)
    (st : FetchState) (hrc : rc ≤ MAX_REDIRECTS) (hred : redirectsToB net a b = true) :
    ∃ st2 : FetchState,
      requestFuel net (fuel + 1) rc a st = requestFuel net fuel (rc + 1) b st2 := by
  have hgt : ¬ rc > MAX_REDIRECTS := by omega
  unfold redirectsToB at hred
  simp only [] at hred
  cases hloc : headerLookup (net.resp a).headers "location" with
  | none => rw [hloc] at hred; exact absurd hred (by simp)
  | some location =>
    rw [hloc] at hred
    simp only [Bool.and_eq_true, decide_eq_true_eq] at hred
    obtain ⟨⟨⟨⟨hte, hce⟩, hst⟩, hclok⟩, hres⟩ := hred
    have hnenc : ¬ (headerLookup (net.resp a).headers "transfer-encoding" ≠ none ∨
        headerLookup (net.resp a).headers "content-encoding" ≠ none) := by
      simp [hte, hce]
    simp only [requestFuel]
    rw [if_neg hgt]
    simp only [if_neg hnenc, if_pos hst, hloc, hres]
    unfold clDrainOkB at hclok
    cases hcl : headerLookup (net.resp a).headers "content-length" with
    | none => simp only [hcl]; exact ⟨_, rfl⟩
    | some v =>
      rw [hcl] at hclok
      simp only [hcl]
      by_cases hv : v = ""
      · simp only [hv, if_pos rfl]
        exact ⟨_, rfl⟩
      · simp only [Bool.or_eq_true, decide_eq_true_eq] at hclok
        rcases hclok with hclok | hclok
        · exact absurd hclok hv
        · obtain ⟨n, hn⟩ := Option.isSome_iff_exists.mp hclok
          simp only [if_neg hv, hn, Option.map_some]
          exact ⟨_, rfl⟩

/-- A chain of redirect hops ending in an acceptable 200 returns the
final body, provided the hop budget is not exhausted. -/
theorem requestFuel_chain_ok (net : Net) (hops : List HttpLoc) :
    ∀ (a : HttpLoc) (rc fuel : Nat) (st : FetchState),
      fuel + rc = MAX_REDIRECTS + 2 →
      rc + hops.length ≤ MAX_REDIRECTS →
      redirectSeqB net a hops = true →
      finalOkB net (hops.getLastD a) = true →
      (requestFuel net fuel rc a st).2 =
        .ok (utf8DecodeReplace (net.resp (hops.getLastD a)).body) := by
  induction hops with
  | nil =>
    intro a rc fuel st hfuel hlen hseq hfin
    have hgt : ¬ rc > MAX_REDIRECTS := by simp at hlen; omega
    obtain ⟨m, rfl⟩ : ∃ m, fuel = m + 1 := by
      refine ⟨fuel - 1, ?_⟩; omega
    unfold finalOkB at hfin
    simp only [List.getLastD_nil] at hfin ⊢
    simp only [Bool.and_eq_true, decide_eq_true_eq] at hfin
    obtain ⟨⟨⟨hte, hce⟩, hst⟩, hcl⟩ := hfin
    have hnenc : ¬ (headerLookup (net.resp a).headers "transfer-encoding" ≠ none ∨
        headerLookup (net.resp a).headers "content-encoding" ≠ none) := by
      simp [hte, hce]
    have hnred : ¬ (300 ≤ (net.resp a).status ∧ (net.resp a).status < 400) := by
      rw [hst]; omega
    simp only [requestFuel]
    rw [if_neg hgt]
    simp only [if_neg hnenc, if_neg hnred]
    cases hclv : headerLookup (net.resp a).headers "content-length" with
    | none => simp [finishNoLength]
    | some v =>
      rw [hclv] at hcl
      simp only [decide_eq_true_eq] at hcl
      obtain ⟨hv, hn⟩ := hcl
      simp only [if_neg hv, hn]
      simp [List.take_length]
  | cons b rest ih =>
    intro a rc fuel st hfuel hlen hseq hfin
    simp only [redirectSeqB, Bool.and_eq_true] at hseq
    obtain ⟨hred, hseq⟩ := hseq
    simp only [List.length_cons] at hlen
    obtain ⟨m, rfl⟩ : ∃ m, fuel = m + 1 := by
      refine ⟨fuel - 1, ?_⟩; omega
    obtain ⟨st2, hstep⟩ := requestFuel_redirect_step net m rc a b st (by omega) hred
    rw [List.getLastD_cons] at hfin ⊢
    rw [hstep]
    exact ih b (rc + 1) m st2 (by omega) (by omega) hseq hfin

/-- A chain of eleven redirect hops drives the hop counter past the
bound: the fetch fails with the too-many-redirects error. -/
theorem requestFuel_chain_toomany (net : Net) (hops : List HttpLoc) :
    ∀ (a : HttpLoc) (rc fuel : Nat) (st : FetchState),
      fuel + rc = MAX_REDIRECTS + 2 →
      rc + hops.length = MAX_REDIRECTS + 1 →
      redirectSeqB net a hops = true →
      (requestFuel net fuel rc a st).2 = .error .tooManyRedirects := by
  induction hops with
  | nil =>
    intro a rc fuel st hfuel hlen hseq
    have hrc : rc = MAX_REDIRECTS + 1 := by simp at hlen; omega
    obtain ⟨m, rfl⟩ : ∃ m, fuel = m + 1 := by
      refine ⟨fuel - 1, ?_⟩; omega
    have hgt : rc > MAX_REDIRECTS := by omega
    simp [requestFuel, hgt]
  | cons b rest ih =>
    intro a rc fuel st hfuel hlen hseq
    simp only [redirectSeqB, Bool.and_eq_true] at hseq
    obtain ⟨hred, hseq⟩ := hseq
    simp only [List.length_cons] at hlen
    obtain ⟨m, rfl⟩ : ∃ m, fuel = m + 1 := by
      refine ⟨fuel - 1, ?_⟩; omega
    obtain ⟨st2, hstep⟩ := requestFuel_redirect_step net m rc a b st (by omega) hred
    rw [hstep]
    exact ih b (rc + 1) m st2 (by omega) (by omega) hseq

/-- **C1.** A redirect chain of at most ten hops terminating in an
acceptable 200 response returns that final response's body, while a chain
of eleven redirect hops — an eleventh redirect — makes the fetch fail
with the too-many-redirects error, the hop counter having exceeded the
fixed bound `MAX_REDIRECTS = 10`. -/
theorem C1_redirect_bound (net : Net) (st : FetchState) (a : HttpLoc)
    (hops : List HttpLoc) :
    (redirectSeqB net a hops = true → finalOkB net (hops.getLastD a) = true →
      hops.length ≤ MAX_REDIRECTS →
      (request net a st).2 = .ok (utf8DecodeReplace (net.resp (hops.getLastD a)).body)) ∧
    (redirectSeqB net a hops = true → hops.length = MAX_REDIRECTS + 1 →
      (request net a st).2 = .error .tooManyRedirects) := by
  constructor
  · intro hseq hfin hlen
    exact requestFuel_chain_ok net hops a 0 (MAX_REDIRECTS + 2) st (by omega) (by omega)
      hseq hfin
  · intro hseq hlen
    exact requestFuel_chain_toomany net hops a 0 (MAX_REDIRECTS + 2) st (by omega) (by omega)
      hseq

/-- Witness for C1: a two-hop chain ending in 200 returns the final body,
and an eleven-hop chain fails with the too-many-redirects error. -/
theorem C1_redirect_bound_witness :
    (request chain2Net locA st0).2 =
      .ok (utf8DecodeReplace (chain2Net.resp (hops2.getLastD locA)).body) ∧
    (request chain12Net locA st0).2 = .error .tooManyRedirects :=
  ⟨(C1_redirect_bound chain2Net st0 locA hops2).1 (by decide) (by decide) (by decide),
   (C1_redirect_bound chain12Net st0 locA hops11).2 (by decide) (by decide)⟩

theorem charOfNat_toNat (n : Nat) (h : n < 55296) : (Char.ofNat n).toNat = n := by
  unfold Char.ofNat
  rw [dif_pos (Or.inl h)]
  simp [Char.ofNatAux, Char.toNat, UInt32.toNat, BitVec.toNat_ofNatLt]

/-- **C8** (evaluating the code at the failing inputs): a supplied path
that trims to empty yields a `File` locator whose path is `"."` — the
result of normalizing the empty string — and not the configured default
document, both for the explicit `file://` form and for an implicit
schemeless path.  The default-document branch tests emptiness only after
`normpath` has already turned `""` into `"."`, so it can never fire on
these inputs. -/
theorem C8_empty_path_eval :
    parse "file://" = some (.file ".") ∧
    parse "" = some (.file ".") ∧
    parse "   " = some (.file ".") ∧
    defaultDocument = "C:/Users/matas/PersonalProjects/Browser/index.html" ∧
    ("." : String) ≠ defaultDocument := by
  refine ⟨by decide, by decide, by decide, ?_, by decide⟩
  decide

theorem isUnreservedByte_facts (b : Nat) (h : isUnreservedByte b = true) :
    b ≠ 37 ∧ b < 128 := by
  simp only [isUnreservedByte, decide_eq_true_eq] at h
  omega

theorem hexDigitByte_isHex (n : Nat) (hn : n < 16) : isHexB (hexDigitByte n) = true := by
  interval_cases n <;> decide

theorem hexVal_hexDigitByte (n : Nat) (hn : n < 16) : hexVal (hexDigitByte n) = n := by
  interval_cases n <;> decide

theorem hexDigitByte_lt (n : Nat) (hn : n < 16) : hexDigitByte n < 128 := by
  interval_cases n <;> decide

theorem pdAux_cons_ne (b : Nat) (rest : List Nat) (hb : ¬ b = 37) :
    pdAux (b :: rest) = b :: pdAux rest := by
  rw [pdAux.eq_def]
  simp [hb]

theorem pdAux_escape (h1 h2 : Nat) (tail : List Nat)
    (hh1 : isHexB h1 = true) (hh2 : isHexB h2 = true) :
    pdAux (37 :: h1 :: h2 :: tail) = (hexVal h1 * 16 + hexVal h2) :: pdAux tail := by
  rw [pdAux.eq_def]
  simp [hh1, hh2]

theorem utf8EncodeCp_ascii (b : Nat) (h : b < 128) : utf8EncodeCp b = [b] := by
  unfold utf8EncodeCp
  rw [if_pos (by omega)]

/-- The byte image of one encoded byte: itself when unreserved, else the
three bytes of its `%XX` escape. -/
theorem percentEncode_byte_bytes (b : Nat) (hb : b < 256) :
    (utf8Encode (percentEncodeBytes [b])) =
      (if isUnreservedByte b then [b]
       else [37, hexDigitByte (b / 16), hexDigitByte (b % 16)]) := by
  unfold percentEncodeBytes utf8Encode
  by_cases h : isUnreservedByte b
  · obtain ⟨-, h128⟩ := isUnreservedByte_facts b h
    simp [h, charOfNat_toNat b (by omega), utf8EncodeCp_ascii b h128]
  · have hd : b / 16 < 16 := by omega
    have hm : b % 16 < 16 := Nat.mod_lt _ (by omega)
    have hdl := hexDigitByte_lt _ hd
    have hml := hexDigitByte_lt _ hm
    have hpct : utf8EncodeCp ('%').toNat = [37] := rfl
    have hpct2 : utf8EncodeCp 37 = [37] := rfl
    simp [h, charOfNat_toNat _ (show hexDigitByte (b / 16) < 55296 by omega),
      charOfNat_toNat _ (show hexDigitByte (b % 16) < 55296 by omega),
      utf8EncodeCp_ascii _ hdl, utf8EncodeCp_ascii _ hml, hpct, hpct2]

theorem percentEncode_cons (b : Nat) (bs : List Nat) :
    utf8Encode (percentEncodeBytes (b :: bs)) =
      utf8Encode (percentEncodeBytes [b]) ++ utf8Encode (percentEncodeBytes bs) := by
  unfold percentEncodeBytes utf8Encode
  simp

/-- **C9**, amended direction: percent-decoding is a left inverse of the
spec-modelled re-encoder — decoding the encoding of any byte string
reproduces the bytes exactly. -/
theorem C9_percent_decode_left_inverse (bs : List Nat) (h : ∀ b ∈ bs, b < 256) :
    percentDecodeBytes (percentEncodeBytes bs) = bs := by
  induction bs with
  | nil => rfl
  | cons b rest ih =>
    have hb := h b (by simp)
    unfold percentDecodeBytes
    rw [percentEncode_cons, percentEncode_byte_bytes b hb]
    by_cases hu : isUnreservedByte b
    · rw [if_pos hu]
      obtain ⟨h37, -⟩ := isUnreservedByte_facts b hu
      rw [List.singleton_append, pdAux_cons_ne b _ h37]
      rw [show pdAux (utf8Encode (percentEncodeBytes rest)) =
          percentDecodeBytes (percentEncodeBytes rest) from rfl]
      rw [ih (fun y hy => h y (by simp [hy]))]
    · rw [if_neg hu]
      have hd : b / 16 < 16 := by omega
      have hm : b % 16 < 16 := Nat.mod_lt _ (by omega)
      rw [List.cons_append, List.cons_append, List.cons_append, List.nil_append]
      rw [pdAux_escape _ _ _ (hexDigitByte_isHex _ hd) (hexDigitByte_isHex _ hm)]
      rw [hexVal_hexDigitByte _ hd, hexVal_hexDigitByte _ hm]
      rw [show b / 16 * 16 + b % 16 = b from by omega]
      rw [show pdAux (utf8Encode (percentEncodeBytes rest)) =
          percentDecodeBytes (percentEncodeBytes rest) from rfl]
      rw [ih (fun y hy => h y (by simp [hy]))]

/-- Witness for the amended C9 at a concrete byte string containing a
literal-encodable byte, a space, and a high byte. -/
theorem C9_percent_decode_left_inverse_witness :
    percentDecodeBytes (percentEncodeBytes [72, 32, 255]) = [72, 32, 255] :=
  C9_percent_decode_left_inverse [72, 32, 255] (by decide)

/-- **C9**, counterexample to the claim as stated: the payload `"%41"`
decodes to the same bytes as the payload `"A"`, so no re-encoding of the
decoded bytes can reproduce both payloads; the spec-modelled re-encoder
turns the decoded bytes back into `"A"`, not `"%41"`. -/
theorem C9_percent_roundtrip_counterexample :
    percentDecodeBytes "%41" = percentDecodeBytes "A" ∧
    percentEncodeBytes (percentDecodeBytes "%41") = "A" ∧
    ("%41" : String) ≠ "A" := by
  refine ⟨by decide, by decide, by decide⟩

theorem vsMarker_chars :
    vsMarker = ['v', 'i', 'e', 'w', '-', 's', 'o', 'u', 'r', 'c', 'e', ':'] := rfl

theorem dataMarker_chars : dataMarker = ['d', 'a', 't', 'a', ':'] := rfl

theorem schemeSep_chars : schemeSep = [':', '/', '/'] := rfl

theorem contains_false_of_not_mem {c : Char} {l : List Char} (h : c ∉ l) :
    l.contains c = false := by
  cases hcl : l.contains c
  · rfl
  · exact absurd (List.elem_iff.mp hcl) h

theorem contains_append_cons (l1 l2 : List Char) (c : Char) :
    (l1 ++ c :: l2).contains c = true := by
  rw [List.elem_iff]
  simp

theorem splitOnce_single_some (c : Char) (l1 l2 : List Char) (h : c ∉ l1) :
    splitOnceL [c] (l1 ++ c :: l2) = some (l1, l2) := by
  induction l1 with
  | nil => simp [splitOnceL, List.isPrefixOf]
  | cons x xs ih =>
    have hx : ¬ c = x := fun hc => h (by simp [hc])
    rw [List.cons_append, splitOnceL]
    rw [if_neg (by simp [List.isPrefixOf, hx])]
    rw [ih (fun hc => h (by simp [hc]))]
    rfl

theorem splitOnce_scheme_http (tail : List Char) :
    splitOnceL schemeSep ('h' :: 't' :: 't' :: 'p' :: ':' :: '/' :: '/' :: tail) =
      some ("http".data, tail) := by
  simp [schemeSep_chars, splitOnceL, List.isPrefixOf]

theorem splitOnce_scheme_https (tail : List Char) :
    splitOnceL schemeSep ('h' :: 't' :: 't' :: 'p' :: 's' :: ':' :: '/' :: '/' :: tail) =
      some ("https".data, tail) := by
  simp [schemeSep_chars, splitOnceL, List.isPrefixOf]

theorem parseBase_http_noport (hp rem : List Char) (hcol : ':' ∉ hp) (hsl : '/' ∉ hp) :
    parseBase ('h' :: 't' :: 't' :: 'p' :: ':' :: '/' :: '/' :: (hp ++ '/' :: rem)) =
      some (.http ⟨"http", String.mk hp, 80, String.mk ('/' :: rem)⟩) := by
  unfold parseBase
  rw [if_neg (by simp [dataMarker_chars, List.isPrefixOf])]
  rw [splitOnce_scheme_http]
  dsimp only
  rw [if_neg (by decide)]
  rw [if_pos (Or.inl rfl)]
  simp only [contains_append_cons, if_true]
  rw [splitOnce_single_some '/' hp rem hsl]
  simp only [contains_false_of_not_mem hcol]
  rfl

theorem parseBase_https_noport (hp rem : List Char) (hcol : ':' ∉ hp) (hsl : '/' ∉ hp) :
    parseBase ('h' :: 't' :: 't' :: 'p' :: 's' :: ':' :: '/' :: '/' :: (hp ++ '/' :: rem)) =
      some (.http ⟨"https", String.mk hp, 443, String.mk ('/' :: rem)⟩) := by
  unfold parseBase
  rw [if_neg (by simp [dataMarker_chars, List.isPrefixOf])]
  rw [splitOnce_scheme_https]
  dsimp only
  rw [if_neg (by decide)]
  rw [if_pos (Or.inr rfl)]
  simp only [contains_append_cons, if_true]
  rw [splitOnce_single_some '/' hp rem hsl]
  simp only [contains_false_of_not_mem hcol]
  rw [if_neg (by decide)]
  rfl

theorem parseBase_http_port (host pstr rem : List Char) (p : Nat)
    (hcol : ':' ∉ host) (hsl : '/' ∉ host) (hpsl : '/' ∉ pstr)
    (hport : pyIntNat? pstr = some p) :
    parseBase ('h' :: 't' :: 't' :: 'p' :: ':' :: '/' :: '/' ::
        (host ++ ':' :: pstr ++ '/' :: rem)) =
      some (.http ⟨"http", String.mk host, p, String.mk ('/' :: rem)⟩) := by
  unfold parseBase
  rw [if_neg (by simp [dataMarker_chars, List.isPrefixOf])]
  rw [splitOnce_scheme_http]
  dsimp only
  rw [if_neg (by decide)]
  rw [if_pos (Or.inl rfl)]
  have hrw : host ++ ':' :: pstr ++ '/' :: rem = (host ++ ':' :: pstr) ++ '/' :: rem := by
    simp
  rw [hrw]
  have hnosl : '/' ∉ host ++ ':' :: pstr := by
    intro hmem
    rcases List.mem_append.mp hmem with hmem | hmem
    · exact hsl hmem
    · rcases List.mem_cons.mp hmem with hmem | hmem
      · exact absurd hmem.symm (by decide)
      · exact hpsl hmem
  simp only [contains_append_cons, if_true]
  rw [splitOnce_single_some '/' (host ++ ':' :: pstr) rem hnosl]
  dsimp only
  rw [contains_append_cons host pstr ':']
  simp only [if_true]
  rw [splitOnce_single_some ':' host pstr hcol]
  dsimp only
  rw [hport]

theorem parseBase_https_port (host pstr rem : List Char) (p : Nat)
    (hcol : ':' ∉ host) (hsl : '/' ∉ host) (hpsl : '/' ∉ pstr)
    (hport : pyIntNat? pstr = some p) :
    parseBase ('h' :: 't' :: 't' :: 'p' :: 's' :: ':' :: '/' :: '/' ::
        (host ++ ':' :: pstr ++ '/' :: rem)) =
      some (.http ⟨"https", String.mk host, p, String.mk ('/' :: rem)⟩) := by
  unfold parseBase
  rw [if_neg (by simp [dataMarker_chars, List.isPrefixOf])]
  rw [splitOnce_scheme_https]
  dsimp only
  rw [if_neg (by decide)]
  rw [if_pos (Or.inr rfl)]
  have hrw : host ++ ':' :: pstr ++ '/' :: rem = (host ++ ':' :: pstr) ++ '/' :: rem := by
    simp
  rw [hrw]
  have hnosl : '/' ∉ host ++ ':' :: pstr := by
    intro hmem
    rcases List.mem_append.mp hmem with hmem | hmem
    · exact hsl hmem
    · rcases List.mem_cons.mp hmem with hmem | hmem
      · exact absurd hmem.symm (by decide)
      · exact hpsl hmem
  simp only [contains_append_cons, if_true]
  rw [splitOnce_single_some '/' (host ++ ':' :: pstr) rem hnosl]
  dsimp only
  rw [contains_append_cons host pstr ':']
  simp only [if_true]
  rw [splitOnce_single_some ':' host pstr hcol]
  dsimp only
  rw [hport]

/-- Every http(s) locator `parseBase` ever builds has a path beginning
with `/` (the constructor prepends it). -/
theorem parseBase_http_path (u : List Char) (l : HttpLoc)
    (h : parseBase u = some (.http l)) : l.path.data.head? = some '/' := by
  unfold parseBase at h
  repeat' split at h
  all_goals try simp only [] at h
  repeat' split at h
  all_goals simp at h
  all_goals
    subst h
    rfl

/-- Every string parsing to an http(s) locator has a path beginning with
`/`. -/
theorem parse_http_path (s : String) (l : HttpLoc)
    (h : parse s = some (.http l)) : l.path.data.head? = some '/' := by
  unfold parse at h
  simp only [] at h
  split at h
  · cases hb : parseBase (trimL (stripVS (trimL s.data).length (trimL s.data))) with
    | none => rw [hb] at h; exact absurd h (by simp)
    | some inner => rw [hb] at h; exact absurd h (by simp)
  · exact parseBase_http_path _ l h

theorem strMk_slash_cons (rem : String) : String.mk ('/' :: rem.data) = "/" ++ rem := by
  cases rem
  rfl

theorem parse_build_http_noport (host rem : String)
    (htrim : trimL ("http://" ++ host ++ "/" ++ rem).data =
      ("http://" ++ host ++ "/" ++ rem).data)
    (hcol : ':' ∉ host.data) (hsl : '/' ∉ host.data) :
    parse ("http://" ++ host ++ "/" ++ rem) = some (.http ⟨"http", host, 80, "/" ++ rem⟩) := by
  have hdata : ("http://" ++ host ++ "/" ++ rem).data =
      'h' :: 't' :: 't' :: 'p' :: ':' :: '/' :: '/' :: (host.data ++ '/' :: rem.data) := by
    simp [strData_append]
  unfold parse
  rw [htrim, hdata]
  rw [if_neg (by simp [vsMarker_chars, List.isPrefixOf])]
  rw [parseBase_http_noport host.data rem.data hcol hsl, strMk_data, strMk_slash_cons]

theorem parse_build_https_noport (host rem : String)
    (htrim : trimL ("https://" ++ host ++ "/" ++ rem).data =
      ("https://" ++ host ++ "/" ++ rem).data)
    (hcol : ':' ∉ host.data) (hsl : '/' ∉ host.data) :
    parse ("https://" ++ host ++ "/" ++ rem) =
      some (.http ⟨"https", host, 443, "/" ++ rem⟩) := by
  have hdata : ("https://" ++ host ++ "/" ++ rem).data =
      'h' :: 't' :: 't' :: 'p' :: 's' :: ':' :: '/' :: '/' :: (host.data ++ '/' :: rem.data) := by
    simp [strData_append]
  unfold parse
  rw [htrim, hdata]
  rw [if_neg (by simp [vsMarker_chars, List.isPrefixOf])]
  rw [parseBase_https_noport host.data rem.data hcol hsl, strMk_data, strMk_slash_cons]

theorem parse_build_http_port (host portStr rem : String) (p : Nat)
    (htrim : trimL ("http://" ++ host ++ ":" ++ portStr ++ "/" ++ rem).data =
      ("http://" ++ host ++ ":" ++ portStr ++ "/" ++ rem).data)
    (hcol : ':' ∉ host.data) (hsl : '/' ∉ host.data) (hpsl : '/' ∉ portStr.data)
    (hport : pyIntNat? portStr.data = some p) :
    parse ("http://" ++ host ++ ":" ++ portStr ++ "/" ++ rem) =
      some (.http ⟨"http", host, p, "/" ++ rem⟩) := by
  have hdata : ("http://" ++ host ++ ":" ++ portStr ++ "/" ++ rem).data =
      'h' :: 't' :: 't' :: 'p' :: ':' :: '/' :: '/' ::
        (host.data ++ ':' :: portStr.data ++ '/' :: rem.data) := by
    simp [strData_append]
  unfold parse
  rw [htrim, hdata]
  rw [if_neg (by simp [vsMarker_chars, List.isPrefixOf])]
  rw [parseBase_http_port host.data portStr.data rem.data p hcol hsl hpsl hport,
    strMk_data, strMk_slash_cons]

theorem parse_build_https_port (host portStr rem : String) (p : Nat)
    (htrim : trimL ("https://" ++ host ++ ":" ++ portStr ++ "/" ++ rem).data =
      ("https://" ++ host ++ ":" ++ portStr ++ "/" ++ rem).data)
    (hcol : ':' ∉ host.data) (hsl : '/' ∉ host.data) (hpsl : '/' ∉ portStr.data)
    (hport : pyIntNat? portStr.data = some p) :
    parse ("https://" ++ host ++ ":" ++ portStr ++ "/" ++ rem) =
      some (.http ⟨"https", host, p, "/" ++ rem⟩) := by
  have hdata : ("https://" ++ host ++ ":" ++ portStr ++ "/" ++ rem).data =
      'h' :: 't' :: 't' :: 'p' :: 's' :: ':' :: '/' :: '/' ::
        (host.data ++ ':' :: portStr.data ++ '/' :: rem.data) := by
    simp [strData_append]
  unfold parse
  rw [htrim, hdata]
  rw [if_neg (by simp [vsMarker_chars, List.isPrefixOf])]
  rw [parseBase_https_port host.data portStr.data rem.data p hcol hsl hpsl hport,
    strMk_data, strMk_slash_cons]

/-- **C6.** A parsed http(s) locator's path always begins with `/`; for an
authority with no explicit port the port is the scheme default (80 for
http, 443 for https); an explicit `:port` in the authority overrides the
default with that integer — and `http://example.com:8080/path` parses to
host `example.com`, port `8080`, path `/path`. -/
theorem C6_parse_http_invariants :
    (∀ (s : String) (l : HttpLoc), parse s = some (.http l) →
      l.path.data.head? = some '/') ∧
    (∀ host rem : String,
      trimL ("http://" ++ host ++ "/" ++ rem).data = ("http://" ++ host ++ "/" ++ rem).data →
      ':' ∉ host.data → '/' ∉ host.data →
      parse ("http://" ++ host ++ "/" ++ rem) = some (.http ⟨"http", host, 80, "/" ++ rem⟩)) ∧
    (∀ host rem : String,
      trimL ("https://" ++ host ++ "/" ++ rem).data =
        ("https://" ++ host ++ "/" ++ rem).data →
      ':' ∉ host.data → '/' ∉ host.data →
      parse ("https://" ++ host ++ "/" ++ rem) =
        some (.http ⟨"https", host, 443, "/" ++ rem⟩)) ∧
    (∀ (host portStr rem : String) (p : Nat),
      trimL ("http://" ++ host ++ ":" ++ portStr ++ "/" ++ rem).data =
        ("http://" ++ host ++ ":" ++ portStr ++ "/" ++ rem).data →
      ':' ∉ host.data → '/' ∉ host.data → '/' ∉ portStr.data →
      pyIntNat? portStr.data = some p →
      parse ("http://" ++ host ++ ":" ++ portStr ++ "/" ++ rem) =
        some (.http ⟨"http", host, p, "/" ++ rem⟩)) ∧
    (∀ (host portStr rem : String) (p : Nat),
      trimL ("https://" ++ host ++ ":" ++ portStr ++ "/" ++ rem).data =
        ("https://" ++ host ++ ":" ++ portStr ++ "/" ++ rem).data →
      ':' ∉ host.data → '/' ∉ host.data → '/' ∉ portStr.data →
      pyIntNat? portStr.data = some p →
      parse ("https://" ++ host ++ ":" ++ portStr ++ "/" ++ rem) =
        some (.http ⟨"https", host, p, "/" ++ rem⟩)) ∧
    parse "http://example.com:8080/path" =
      some (.http ⟨"http", "example.com", 8080, "/path"⟩) := by
  refine ⟨parse_http_path,
    fun host rem h1 h2 h3 => parse_build_http_noport host rem h1 h2 h3,
    fun host rem h1 h2 h3 => parse_build_https_noport host rem h1 h2 h3,
    fun host portStr rem p h1 h2 h3 h4 h5 =>
      parse_build_http_port host portStr rem p h1 h2 h3 h4 h5,
    fun host portStr rem p h1 h2 h3 h4 h5 =>
      parse_build_https_port host portStr rem p h1 h2 h3 h4 h5,
    by decide⟩

/-- Witness for C6: each part applied at a concrete input. -/
theorem C6_parse_http_invariants_witness :
    (⟨"https", "example.org", 443, "/x"⟩ : HttpLoc).path.data.head? = some '/' ∧
    parse ("http://" ++ "example.com" ++ "/" ++ "") =
      some (.http ⟨"http", "example.com", 80, "/" ++ ""⟩) ∧
    parse ("https://" ++ "example.org" ++ "/" ++ "a/b") =
      some (.http ⟨"https", "example.org", 443, "/" ++ "a/b"⟩) ∧
    parse ("http://" ++ "example.com" ++ ":" ++ "8080" ++ "/" ++ "path") =
      some (.http ⟨"http", "example.com", 8080, "/" ++ "path"⟩) ∧
    parse ("https://" ++ "h" ++ ":" ++ "8443" ++ "/" ++ "") =
      some (.http ⟨"https", "h", 8443, "/" ++ ""⟩) := by
  refine ⟨C6_parse_http_invariants.1 "https://example.org/x"
      ⟨"https", "example.org", 443, "/x"⟩ (by decide),
    C6_parse_http_invariants.2.1 "example.com" "" (by decide) (by decide) (by decide),
    C6_parse_http_invariants.2.2.1 "example.org" "a/b" (by decide) (by decide) (by decide),
    C6_parse_http_invariants.2.2.2.1 "example.com" "8080" "path" 8080 (by decide) (by decide)
      (by decide) (by decide) (by decide),
    C6_parse_http_invariants.2.2.2.2.1 "h" "8443" "" 8443 (by decide) (by decide) (by decide)
      (by decide) (by decide)⟩

end Browser
